import Mathlib

/-!
Verification of the glacier_mapping data-preparation pipeline.

Shallow embedding of the following source files:
* `src/glacier_mapping/data/process_slices_funs.py` — slice filtering,
  train/dev/test splitting, normalization, imputation, channel extraction and
  the postprocessing pipeline dispatcher;
* `src/src/dataset.py` — the `GlacierDataset.__getitem__` image/mask path
  resolution policy.

Conventions:
* Python floats that may be NaN or ±infinity are embedded as `PyFloat`
  (a rational tagged with the special values); exact rational arithmetic
  stands in for IEEE-754 arithmetic.
* A raster array of shape (H, W, C) is embedded channel-first as a list of
  C channels, each channel being the list of its H·W pixel values.
* In-place mutation (`random.shuffle`, the spec mutation in
  `postprocess_tile`) is made explicit by returning the post-call state of
  the mutated argument alongside the ordinary return value.
-/

namespace GlacierMapping

/-! ### Python scalar values

`dataset.py` contains the expression
`self.mask_used == ('debris_glaciers' and self.mode != 'train')`.
To give it meaning we embed the fragment of Python's value model it needs:
strings and booleans, truthiness, short-circuit `and`, and `==` between a
string and a boolean (which is `False` in Python). -/

inductive PyVal where
  | str (s : String)
  | bool (b : Bool)
deriving DecidableEq

/-- Python truthiness: a string is truthy iff non-empty. -/
def pyTruthy : PyVal → Bool
  | .str s => decide (s ≠ "")
  | .bool b => b

/-- Python `a and b`: returns `a` if `a` is falsy, else `b`. -/
def pyAnd (a b : PyVal) : PyVal :=
  if pyTruthy a then b else a

/-- Python `==` on our value fragment: a `str` never equals a `bool`. -/
def pyEq : PyVal → PyVal → Bool
  | .str a, .str b => decide (a = b)
  | .bool a, .bool b => decide (a = b)
  | _, _ => false

/-! ### `dataset.py`: path resolution in `GlacierDataset.__getitem__`

One catalog row, with the columns `__getitem__` reads.  `Path(base_dir, ...)`
joining is elided: we resolve which *column* of the row supplies each path
and return that column's value. -/

structure CatalogRow where
  img_path : String
  mask_path : String
  actual_debris_mask_path : String
  border_path : String
  cropped_path : String
  cropped_label : String
  actual_debris_cropped_label : String
deriving DecidableEq

/-- Column-name lookup on a row (`self.data.iloc[i][col]`). -/
def rowColumn (row : CatalogRow) : String → String
  | "img_path" => row.img_path
  | "mask_path" => row.mask_path
  | "actual_debris_mask_path" => row.actual_debris_mask_path
  | "border_path" => row.border_path
  | "cropped_path" => row.cropped_path
  | "cropped_label" => row.cropped_label
  | "actual_debris_cropped_label" => row.actual_debris_cropped_label
  | _ => ""

/-- The `cropped_pathes` column pair chosen in `__getitem__`:

    cropped_pathes = ['cropped_path', 'cropped_label']
    if self.mask_used == 'actual_debris':
        cropped_pathes = ['cropped_path', 'actual_debris_cropped_label']
    elif self.mask_used == ('debris_glaciers' and self.mode != 'train'):
        cropped_pathes = ['cropped_path', 'actual_debris_cropped_label']

The `elif` guard is embedded with Python semantics via `pyEq`/`pyAnd`. -/
def croppedPathes (mask_used mode : String) : String × String :=
  if mask_used = "actual_debris" then
    ("cropped_path", "actual_debris_cropped_label")
  else if pyEq (.str mask_used)
      (pyAnd (.str "debris_glaciers") (.bool (decide (mode ≠ "train")))) then
    ("cropped_path", "actual_debris_cropped_label")
  else
    ("cropped_path", "cropped_label")

/-- The mask path `__getitem__` ends up loading (lines 54–75 of
`src/src/dataset.py`): start from `mask_path` (or
`actual_debris_mask_path` when the variant is `actual_debris`), then, when
`use_cropped` is set, overwrite it with the cropped label column selected by
`croppedPathes`. -/
def resolvedMaskPath (row : CatalogRow) (mask_used mode : String)
    (use_cropped : Bool) : String :=
  let base :=
    if mask_used = "actual_debris" then rowColumn row "actual_debris_mask_path"
    else rowColumn row "mask_path"
  if use_cropped then rowColumn row (croppedPathes mask_used mode).2 else base

/-! ### Python floats with NaN / ±infinity -/

inductive PyFloat where
  | finite (q : ℚ)
  | nan
  | posinf
  | neginf
deriving DecidableEq

/-- Largest finite IEEE-754 double, `(2^53 - 1) * 2^971`
(= 1.7976931348623157e308), exactly. -/
def floatMax : ℚ := (2 ^ 53 - 1) * 2 ^ 971

/-- `x - m` for a rational `m` (means/stds are finite rationals). -/
def PyFloat.subQ : PyFloat → ℚ → PyFloat
  | .finite q, m => .finite (q - m)
  | .nan, _ => .nan
  | .posinf, _ => .posinf
  | .neginf, _ => .neginf

/-- `x + m` for a rational `m`. -/
def PyFloat.addQ : PyFloat → ℚ → PyFloat
  | .finite q, m => .finite (q + m)
  | .nan, _ => .nan
  | .posinf, _ => .posinf
  | .neginf, _ => .neginf

/-- `x / s` for a nonzero rational `s` (in the pipeline the divisor is the
strictly positive std guarded by `normalize_`). -/
def PyFloat.divQ : PyFloat → ℚ → PyFloat
  | .finite q, s => .finite (q / s)
  | .nan, _ => .nan
  | .posinf, s => if s < 0 then .neginf else .posinf
  | .neginf, s => if s < 0 then .posinf else .neginf

/-- `x * s` for a nonzero rational `s`. -/
def PyFloat.mulQ : PyFloat → ℚ → PyFloat
  | .finite q, s => .finite (q * s)
  | .nan, _ => .nan
  | .posinf, s => if s < 0 then .neginf else .posinf
  | .neginf, s => if s < 0 then .posinf else .neginf

/-- A raster array of shape (H, W, C), stored as C channels of H·W pixels. -/
abbrev Img := List (List PyFloat)

/-! ### `filter_directory` -/

/-- One row of the `slice_meta` table: per-channel mask coverage means
(`mask_mean_{c}` columns, embedded as a function of the channel), the scalar
image mean, and the two slice paths. -/
structure SliceRow where
  mask_mean : ℕ → ℚ
  img_mean : ℚ
  img_slice : String
  mask_slice : String

structure PathPair where
  img : String
  mask : String
deriving DecidableEq

/-- `filter_directory(slice_meta, filter_perc=0.2, filter_channel=1)`:
keep rows with `mask_mean_{filter_channel} > filter_perc`, then rows with
`img_mean > 0`, and return their `{img, mask}` path pairs in input order. -/
def filter_directory (slice_meta : List SliceRow) (filter_perc : ℚ := 1/5)
    (filter_channel : ℕ := 1) : List PathPair :=
  let m1 := slice_meta.filter (fun d => decide (filter_perc < d.mask_mean filter_channel))
  let m2 := m1.filter (fun d => decide (0 < d.img_mean))
  m2.map (fun d => { img := d.img_slice, mask := d.mask_slice })

/-! ### `random_split`

`random.shuffle(ids)` mutates `ids` in place; the embedding takes the shuffle
outcome as a function argument (any permutation) and returns the post-call
state of `ids` alongside the three buckets.  `np.cumsum` of
`len(ids) * split_ratio` is computed in exact rational arithmetic, and
Python's `int()` (truncation toward zero) and negative-index list slicing are
embedded faithfully. -/

/-- Python `int()` on a rational: truncation toward zero. -/
def pyInt (q : ℚ) : ℤ :=
  if q < 0 then -(Int.floor (-q)) else Int.floor q

/-- Effective index of a Python slice endpoint `i` on a list of length `n`:
negative indices count from the end, both ends clamp into `[0, n]`. -/
def pyIdx (n : ℕ) (i : ℤ) : ℕ :=
  if i < 0 then (max 0 (n + i)).toNat else min i.toNat n

/-- Python list slicing `l[a:b]`. -/
def pySlice {α : Type} (l : List α) (a b : ℤ) : List α :=
  (l.take (pyIdx l.length b)).drop (pyIdx l.length a)

structure SplitResult (α : Type) where
  train : List α
  dev : List α
  test : List α
deriving DecidableEq

/-- The three boundary indices
`ix = [int(s) for s in np.cumsum(len(ids) * np.array(split_ratio))]`. -/
def splitBoundaries (n : ℕ) (r : ℚ × ℚ × ℚ) : ℤ × ℤ × ℤ :=
  let s1 := (n : ℚ) * r.1
  let s2 := (n : ℚ) * r.2.1
  let s3 := (n : ℚ) * r.2.2
  (pyInt s1, pyInt (s1 + s2), pyInt (s1 + s2 + s3))

/-- `random_split(ids, split_ratio)`.  The first component of the result is
the caller's list after the in-place `random.shuffle`; the second holds the
`train`/`dev`/`test` slices of that mutated list. -/
def random_split {α : Type} (shuffle : List α → List α) (ids : List α)
    (split_ratio : ℚ × ℚ × ℚ) : List α × SplitResult α :=
  let ids' := shuffle ids
  let b := splitBoundaries ids'.length split_ratio
  (ids',
    { train := pySlice ids' 0 b.1
      dev := pySlice ids' b.1 b.2.1
      test := pySlice ids' b.2.1 b.2.2 })

/-! ### `normalize_`, `impute`, `extract_channel` -/

/-- The body of the per-channel loop of `normalize_`: subtract the mean, then
divide by the std if it is positive, else assign 0 to the whole channel. -/
def normChannel (ch : List PyFloat) (m s : ℚ) : List PyFloat :=
  let ch1 := ch.map (fun x => x.subQ m)
  if 0 < s then ch1.map (fun x => x.divQ s) else ch1.map (fun _ => PyFloat.finite 0)

/-- `normalize_(img, means, stds)`.  The source loops over
`range(img.shape[2])` indexing `means[i]` / `stds[i]`; under the stats-record
invariant (one mean and one std per channel) this is the channelwise zip
below. -/
def normalize_ (img : Img) (means stds : List ℚ) : Img :=
  List.zipWith (fun ch ms => normChannel ch ms.1 ms.2) img (means.zip stds)

/-- The per-channel denormalization `x * std + mean` (the inverse operation
named by the spec's round-trip property; not a function of the source). -/
def denormalize (img : Img) (means stds : List ℚ) : Img :=
  List.zipWith (fun ch ms => ch.map (fun x => (x.mulQ ms.2).addQ ms.1)) img
    (means.zip stds)

/-- `np.nan_to_num(·, nan=value)` on one entry: NaN becomes `value`, and —
because the `posinf` / `neginf` keywords are left at their defaults —
+infinity becomes the largest finite double and -infinity the most negative
finite double.  Finite entries are returned unchanged. -/
def nan_to_num (value : ℚ) : PyFloat → PyFloat
  | .finite q => .finite q
  | .nan => .finite value
  | .posinf => .finite floatMax
  | .neginf => .finite (-floatMax)

/-- `impute(img, mask, value=0)`: `img = np.nan_to_num(img, nan=value)`,
mask passed through. -/
def impute (img mask : Img) (value : ℚ := 0) : Img × Img :=
  (img.map (List.map (nan_to_num value)), mask)

/-- A value for the `mask_channels` / `img_channels` arguments of
`extract_channel`: `None` (the default), a list of channel indices, or a
scalar index (as assigned by `postprocess_tile`). -/
inductive ChannelSel where
  | none_
  | idxList (l : List ℕ)
  | scalar (i : ℕ)
deriving DecidableEq

/-- Channel selection `arr[:, :, sel]`.  `None` stands for
`np.arange(arr.shape[2])`, i.e. all channels in order.  A scalar index in
numpy drops the channel axis; in the channel-list embedding the result keeps
a single channel entry.  Indices are assumed in range (numpy raises
`IndexError` otherwise); the embedding's `getD` default is never reached on
in-range indices. -/
def selectChannels (arr : Img) : ChannelSel → Img
  | .none_ => (List.range arr.length).map (fun i => arr.getD i [])
  | .idxList l => l.map (fun i => arr.getD i [])
  | .scalar i => [arr.getD i []]

/-- `extract_channel(img, mask, mask_channels=None, img_channels=None)`. -/
def extract_channel (img mask : Img) (mask_channels : ChannelSel := .none_)
    (img_channels : ChannelSel := .none_) : Img × Img :=
  (selectChannels img img_channels, selectChannels mask mask_channels)

/-! ### The postprocessing pipeline dispatcher -/

/-- The keyword arguments attached to one named step of a processing spec.
`normalizeArgs` carries the parsed content of the stats file (the source's
`normalize` wrapper reads `means`/`stds` from `stats_path`; file IO is
abstracted to the parsed record). -/
inductive StepArgs where
  | normalizeArgs (means stds : List ℚ)
  | imputeArgs (value : ℚ)
  | extractArgs (mask_channels img_channels : ChannelSel)
  | noArgs
deriving DecidableEq

/-- The `mask_channels` argument carried by a step's arguments, when the
arguments are those of `extract_channel`. -/
def maskChannelsOf : StepArgs → Option ChannelSel
  | .extractArgs mc _ => some mc
  | _ => none

/-- `process_funs.extract_channel.mask_channels = v` on an argument record:
meaningful on `extract_channel` arguments; other argument records under that
key are left unmodelled (an ill-formed spec). -/
def setMaskChannels (a : StepArgs) (v : ChannelSel) : StepArgs :=
  match a with
  | .extractArgs _ ic => .extractArgs v ic
  | other => other

/-- The names defined at module level in `process_slices_funs.py` — exactly
what `getattr(sys.modules[__name__], fun_name)` can resolve: the imported
names and the module's own functions. -/
def moduleAttrs : List String :=
  ["Path", "copyfile", "json", "os", "random", "sys", "np",
   "filter_directory", "random_split", "reshuffle", "generate_stats",
   "normalize_", "normalize", "impute", "extract_channel",
   "postprocess_tile", "postprocess_", "postprocess"]

/-- Modelled from the spec: the fixed registry of processing-step names
(§4.8: "{normalize, impute, extract-channel, …}" — the module's functions
with a step's `(img, mask, **kwargs)` calling convention).  The source has
no such registry; it is stated here to compare the spec's contract with the
source's `getattr` dispatch. -/
def stepRegistry : List String := ["normalize", "impute", "extract_channel"]

/-- Outcome of one failed iteration of `postprocess_`:
`attributeError name` is the `AttributeError` raised by `getattr` for a name
the module does not define (the error names the offending attribute);
`dispatched name` records that `getattr` succeeded and the named module
attribute was called even though it is not a processing step — the call's
own behavior lies outside the step embedding. -/
inductive PipelineError where
  | attributeError (name : String)
  | dispatched (name : String)
deriving DecidableEq

/-- One iteration of the `postprocess_` loop:
`f = getattr(sys.modules[__name__], fun_name)` (an `AttributeError` when the
name is not a module attribute), then `f(img, mask, **fun_args)`. -/
def postprocessStep (name : String) (args : StepArgs) (img mask : Img) :
    Except PipelineError (Img × Img) :=
  if name ∈ moduleAttrs then
    match name, args with
    | "normalize", .normalizeArgs ms ss => .ok (normalize_ img ms ss, mask)
    | "impute", .imputeArgs v => .ok (impute img mask v)
    | "extract_channel", .extractArgs mc ic => .ok (extract_channel img mask mc ic)
    | n, _ => .error (.dispatched n)
  else .error (.attributeError name)

/-- `postprocess_(img, mask, process_funs)`: thread (img, mask) through the
named steps in order; a raised error aborts the loop. -/
def postprocess_ (img mask : Img) : List (String × StepArgs) →
    Except PipelineError (Img × Img)
  | [] => .ok (img, mask)
  | (name, args) :: rest =>
    match postprocessStep name args img mask with
    | .ok (i, m) => postprocess_ i m rest
    | .error e => .error e

/-- `postprocess_tile(img, process_funs)`: first mutates the caller's spec
(`process_funs.extract_channel.mask_channels = 0`), then builds a fake
one-channel zero mask of the image's spatial shape and runs `postprocess_`
with the mutated spec.  The first component of the result is the caller's
spec after the call. -/
def postprocess_tile (img : Img) (process_funs : List (String × StepArgs)) :
    List (String × StepArgs) × Except PipelineError (Img × Img) :=
  let funs' := process_funs.map (fun p =>
    if p.1 = "extract_channel" then (p.1, setMaskChannels p.2 (.scalar 0)) else p)
  let mask : Img := [List.replicate (img.headD []).length (PyFloat.finite 0)]
  (funs', postprocess_ img mask funs')

/-- The spec consisting solely of an extract-channels step with the default
("all channels") channel sets. -/
def fullChannelSpec : List (String × StepArgs) :=
  [("extract_channel", .extractArgs .none_ .none_)]

/-! ### Concrete fixtures used by witnesses and counterexamples -/

/-- A one-channel, two-pixel image. -/
def exImgA : Img := [[PyFloat.finite 1, PyFloat.finite 2]]

/-- A processing spec whose extract-channel step already has
`mask_channels = 0` (the scalar `postprocess_tile` assigns). -/
def specZero : List (String × StepArgs) :=
  [("extract_channel", .extractArgs (.scalar 0) .none_)]

/-- A processing spec whose extract-channel step has a list-valued
`mask_channels` argument (distinct from the scalar 0). -/
def specList : List (String × StepArgs) :=
  [("extract_channel", .extractArgs (.idxList [0]) .none_)]

/-- A two-channel image with a NaN pixel in the first channel. -/
def imgW : Img := [[PyFloat.finite 1, PyFloat.nan], [PyFloat.finite 3]]

/-- A two-channel image with a +infinity pixel and a NaN pixel. -/
def imgW2 : Img := [[PyFloat.finite 4], [PyFloat.posinf, PyFloat.nan]]

/-- A metadata row whose coverage is exactly the 0.2 threshold. -/
def rowBoundary : SliceRow := ⟨fun _ => 1/5, 1, "img-boundary", "mask-boundary"⟩

/-- A metadata row with full coverage but zero image mean. -/
def rowZeroMean : SliceRow := ⟨fun _ => 1, 0, "img-zeromean", "mask-zeromean"⟩

/-- A metadata row with coverage 0.2000001 and positive image mean. -/
def rowIncluded : SliceRow :=
  ⟨fun _ => 2000001/10000000, 1, "img-included", "mask-included"⟩

/-! ### Shared helper lemmas -/

/-- `selectChannels` with the default `None` argument keeps every channel. -/
theorem selectChannels_none (arr : Img) : selectChannels arr .none_ = arr := by
  simp only [selectChannels]
  apply List.ext_getElem
  · simp
  · intro i h1 h2
    simp [List.getD_eq_getElem?_getD, List.getElem?_eq_getElem h2]

/-- `normalize_` acts channelwise: the `i`-th output channel is
`normChannel` of the `i`-th input channel and the `i`-th stats entries. -/
theorem normalize_getD (img : Img) (means stds : List ℚ) (i : ℕ)
    (hm : means.length = img.length) (hs : stds.length = img.length)
    (hi : i < img.length) :
    (normalize_ img means stds).getD i [] =
      normChannel (img.getD i []) (means.getD i 0) (stds.getD i 0) := by
  induction img generalizing means stds i with
  | nil => simp at hi
  | cons ch rest ih =>
    cases means with
    | nil => simp at hm
    | cons m ms =>
      cases stds with
      | nil => simp at hs
      | cons s ss =>
        cases i with
        | zero => rfl
        | succ j =>
          simp only [normalize_, List.zip_cons_cons, List.zipWith_cons_cons,
            List.getD_cons_succ]
          exact ih ms ss j (by simpa using hm) (by simpa using hs) (by simpa using hi)

/-- `normalize_` preserves the channel count. -/
theorem normalize_length (img : Img) (means stds : List ℚ)
    (hm : means.length = img.length) (hs : stds.length = img.length) :
    (normalize_ img means stds).length = img.length := by
  simp [normalize_, hm, hs]

/-- Round trip of one pixel: subtract, divide, multiply, add is the
identity when the std is strictly positive. -/
theorem roundtrip_elem (x : PyFloat) (m s : ℚ) (hs : 0 < s) :
    (((x.subQ m).divQ s).mulQ s).addQ m = x := by
  cases x with
  | finite q =>
    simp only [PyFloat.subQ, PyFloat.divQ, PyFloat.mulQ, PyFloat.addQ]
    rw [div_mul_cancel₀ _ hs.ne', sub_add_cancel]
  | nan => rfl
  | posinf =>
    simp [PyFloat.subQ, PyFloat.divQ, PyFloat.mulQ, PyFloat.addQ, not_lt.mpr hs.le]
  | neginf =>
    simp [PyFloat.subQ, PyFloat.divQ, PyFloat.mulQ, PyFloat.addQ, not_lt.mpr hs.le]

/-- Python `int()` agrees with the floor on nonnegative rationals. -/
theorem pyInt_eq_floor (q : ℚ) (h : 0 ≤ q) : pyInt q = ⌊q⌋ := by
  rw [pyInt, if_neg (not_lt.mpr h)]

/-- A nonnegative Python slice endpoint clamps to `min i n`. -/
theorem pyIdx_nonneg (n : ℕ) (i : ℤ) (h : 0 ≤ i) : pyIdx n i = min i.toNat n := by
  rw [pyIdx, if_neg (not_lt.mpr h)]

theorem take_min_length {α : Type} (l : List α) (k : ℕ) :
    l.take (min k l.length) = l.take k := by
  rcases le_total k l.length with h | h
  · rw [min_eq_left h]
  · rw [min_eq_right h, List.take_length, List.take_of_length_le h]

/-- Python slicing with nonnegative endpoints is take-then-drop. -/
theorem pySlice_nonneg {α : Type} (l : List α) (a b : ℤ) (ha : 0 ≤ a) (hb : 0 ≤ b) :
    pySlice l a b = (l.take b.toNat).drop a.toNat := by
  rw [pySlice, pyIdx_nonneg _ _ ha, pyIdx_nonneg _ _ hb, take_min_length]
  rcases le_total a.toNat l.length with h | h
  · rw [min_eq_left h]
  · rw [min_eq_right h, List.drop_eq_nil_of_le, List.drop_eq_nil_of_le]
    · simp only [List.length_take]
      omega
    · simp only [List.length_take]
      omega

/-- Adjacent contiguous slices concatenate to the longer prefix. -/
theorem take_append_drop_take {α : Type} (l : List α) (a b : ℕ) (h : a ≤ b) :
    l.take a ++ (l.take b).drop a = l.take b := by
  conv_rhs => rw [← List.take_append_drop a (l.take b)]
  rw [List.take_take, min_eq_left h]

/-! ### Claim theorems -/

/-- C1: evaluation of the code at the failing inputs.  Under the
`debris_glaciers` mask variant in a non-training mode (`dev` or `test`) with
cropped variants enabled, `__getitem__` loads the *default* cropped label
(`cropped_label`), not the actual-debris cropped label the spec's intent
(and the source's own inline comment) require: the guard
`mask_used == ('debris_glaciers' and mode != 'train')` compares a string
with a boolean and is false for every `mask_used` and `mode`. -/
theorem dataset_debris_glaciers_eval_uses_default_cropped_label
    (row : CatalogRow) :
    resolvedMaskPath row "debris_glaciers" "dev" true = row.cropped_label ∧
    resolvedMaskPath row "debris_glaciers" "test" true = row.cropped_label ∧
    (∀ mu mo : String,
      pyEq (.str mu)
        (pyAnd (.str "debris_glaciers") (.bool (decide (mo ≠ "train")))) = false) :=
  ⟨rfl, rfl, fun _ _ => rfl⟩

/-- C2 (amended: all three ratios also nonnegative): for every shuffle
outcome that permutes the ids and nonnegative ratios summing to at most 1,
`random_split` returns buckets whose lengths sum to at most `N`, whose
boundary indices are the floors of the cumulative ratio sums times `N`
(ordered and bounded by `N`, so the three index ranges are pairwise
disjoint), which are the contiguous slices of the shuffled list at those
boundaries, whose concatenation is a prefix of the shuffled list, and
whose combined multiset is a sub-multiset of the input ids. -/
theorem random_split_spec {α : Type} (shuffle : List α → List α) (ids : List α)
    (r1 r2 r3 : ℚ) (hperm : (shuffle ids).Perm ids)
    (h1 : 0 ≤ r1) (h2 : 0 ≤ r2) (h3 : 0 ≤ r3) (hsum : r1 + r2 + r3 ≤ 1) :
    (random_split shuffle ids (r1, r2, r3)).2.train.length +
        (random_split shuffle ids (r1, r2, r3)).2.dev.length +
        (random_split shuffle ids (r1, r2, r3)).2.test.length ≤ ids.length ∧
    (splitBoundaries ids.length (r1, r2, r3)).1 = ⌊(ids.length : ℚ) * r1⌋ ∧
    (splitBoundaries ids.length (r1, r2, r3)).2.1 = ⌊(ids.length : ℚ) * (r1 + r2)⌋ ∧
    (splitBoundaries ids.length (r1, r2, r3)).2.2 =
      ⌊(ids.length : ℚ) * (r1 + r2 + r3)⌋ ∧
    (0 : ℤ) ≤ (splitBoundaries ids.length (r1, r2, r3)).1 ∧
    (splitBoundaries ids.length (r1, r2, r3)).1 ≤
      (splitBoundaries ids.length (r1, r2, r3)).2.1 ∧
    (splitBoundaries ids.length (r1, r2, r3)).2.1 ≤
      (splitBoundaries ids.length (r1, r2, r3)).2.2 ∧
    (splitBoundaries ids.length (r1, r2, r3)).2.2 ≤ (ids.length : ℤ) ∧
    (random_split shuffle ids (r1, r2, r3)).2.train =
      (shuffle ids).take (splitBoundaries ids.length (r1, r2, r3)).1.toNat ∧
    (random_split shuffle ids (r1, r2, r3)).2.dev =
      ((shuffle ids).take (splitBoundaries ids.length (r1, r2, r3)).2.1.toNat).drop
        (splitBoundaries ids.length (r1, r2, r3)).1.toNat ∧
    (random_split shuffle ids (r1, r2, r3)).2.test =
      ((shuffle ids).take (splitBoundaries ids.length (r1, r2, r3)).2.2.toNat).drop
        (splitBoundaries ids.length (r1, r2, r3)).2.1.toNat ∧
    (random_split shuffle ids (r1, r2, r3)).2.train ++
        (random_split shuffle ids (r1, r2, r3)).2.dev ++
        (random_split shuffle ids (r1, r2, r3)).2.test =
      (shuffle ids).take (splitBoundaries ids.length (r1, r2, r3)).2.2.toNat ∧
    ((random_split shuffle ids (r1, r2, r3)).2.train ++
        (random_split shuffle ids (r1, r2, r3)).2.dev ++
        (random_split shuffle ids (r1, r2, r3)).2.test : Multiset α) ≤
      (ids : Multiset α) := by
  have hlen : (shuffle ids).length = ids.length := hperm.length_eq
  have hn : (0 : ℚ) ≤ (ids.length : ℚ) := Nat.cast_nonneg _
  have hq1 : (0 : ℚ) ≤ (ids.length : ℚ) * r1 := mul_nonneg hn h1
  have hq2 : (0 : ℚ) ≤ (ids.length : ℚ) * r1 + (ids.length : ℚ) * r2 :=
    add_nonneg hq1 (mul_nonneg hn h2)
  have hq3 : (0 : ℚ) ≤ (ids.length : ℚ) * r1 + (ids.length : ℚ) * r2 +
      (ids.length : ℚ) * r3 := add_nonneg hq2 (mul_nonneg hn h3)
  have e1 : (splitBoundaries ids.length (r1, r2, r3)).1 =
      ⌊(ids.length : ℚ) * r1⌋ := by
    simp only [splitBoundaries]
    exact pyInt_eq_floor _ hq1
  have e2 : (splitBoundaries ids.length (r1, r2, r3)).2.1 =
      ⌊(ids.length : ℚ) * (r1 + r2)⌋ := by
    simp only [splitBoundaries]
    rw [pyInt_eq_floor _ hq2]
    congr 1
    ring
  have e3 : (splitBoundaries ids.length (r1, r2, r3)).2.2 =
      ⌊(ids.length : ℚ) * (r1 + r2 + r3)⌋ := by
    simp only [splitBoundaries]
    rw [pyInt_eq_floor _ hq3]
    congr 1
    ring
  have o01 : (0 : ℤ) ≤ (splitBoundaries ids.length (r1, r2, r3)).1 := by
    rw [e1]
    exact Int.floor_nonneg.mpr hq1
  have o12 : (splitBoundaries ids.length (r1, r2, r3)).1 ≤
      (splitBoundaries ids.length (r1, r2, r3)).2.1 := by
    rw [e1, e2]
    exact Int.floor_le_floor
      (mul_le_mul_of_nonneg_left (le_add_of_nonneg_right h2) hn)
  have o23 : (splitBoundaries ids.length (r1, r2, r3)).2.1 ≤
      (splitBoundaries ids.length (r1, r2, r3)).2.2 := by
    rw [e2, e3]
    exact Int.floor_le_floor
      (mul_le_mul_of_nonneg_left (le_add_of_nonneg_right h3) hn)
  have o3n : (splitBoundaries ids.length (r1, r2, r3)).2.2 ≤ (ids.length : ℤ) := by
    rw [e3]
    calc ⌊(ids.length : ℚ) * (r1 + r2 + r3)⌋ ≤ ⌊(ids.length : ℚ)⌋ :=
          Int.floor_le_floor (mul_le_of_le_one_right hn hsum)
      _ = (ids.length : ℤ) := Int.floor_natCast _
  have unfold_rs : random_split shuffle ids (r1, r2, r3) =
      (shuffle ids,
        { train := pySlice (shuffle ids) 0 (splitBoundaries ids.length (r1, r2, r3)).1
          dev := pySlice (shuffle ids) (splitBoundaries ids.length (r1, r2, r3)).1
            (splitBoundaries ids.length (r1, r2, r3)).2.1
          test := pySlice (shuffle ids) (splitBoundaries ids.length (r1, r2, r3)).2.1
            (splitBoundaries ids.length (r1, r2, r3)).2.2 }) := by
    simp only [random_split, hlen]
  have t_train : (random_split shuffle ids (r1, r2, r3)).2.train =
      (shuffle ids).take (splitBoundaries ids.length (r1, r2, r3)).1.toNat := by
    rw [unfold_rs]
    show pySlice (shuffle ids) 0 (splitBoundaries ids.length (r1, r2, r3)).1 = _
    rw [pySlice_nonneg _ _ _ le_rfl o01]
    simp
  have t_dev : (random_split shuffle ids (r1, r2, r3)).2.dev =
      ((shuffle ids).take (splitBoundaries ids.length (r1, r2, r3)).2.1.toNat).drop
        (splitBoundaries ids.length (r1, r2, r3)).1.toNat := by
    rw [unfold_rs]
    exact pySlice_nonneg _ _ _ o01 (le_trans o01 o12)
  have t_test : (random_split shuffle ids (r1, r2, r3)).2.test =
      ((shuffle ids).take (splitBoundaries ids.length (r1, r2, r3)).2.2.toNat).drop
        (splitBoundaries ids.length (r1, r2, r3)).2.1.toNat := by
    rw [unfold_rs]
    exact pySlice_nonneg _ _ _ (le_trans o01 o12) (le_trans (le_trans o01 o12) o23)
  have tn12 : (splitBoundaries ids.length (r1, r2, r3)).1.toNat ≤
      (splitBoundaries ids.length (r1, r2, r3)).2.1.toNat := Int.toNat_le_toNat o12
  have tn23 : (splitBoundaries ids.length (r1, r2, r3)).2.1.toNat ≤
      (splitBoundaries ids.length (r1, r2, r3)).2.2.toNat := Int.toNat_le_toNat o23
  have hconcat : (random_split shuffle ids (r1, r2, r3)).2.train ++
      (random_split shuffle ids (r1, r2, r3)).2.dev ++
      (random_split shuffle ids (r1, r2, r3)).2.test =
      (shuffle ids).take (splitBoundaries ids.length (r1, r2, r3)).2.2.toNat := by
    rw [t_train, t_dev, t_test, take_append_drop_take _ _ _ tn12,
      take_append_drop_take _ _ _ tn23]
  have hlensum : (random_split shuffle ids (r1, r2, r3)).2.train.length +
      (random_split shuffle ids (r1, r2, r3)).2.dev.length +
      (random_split shuffle ids (r1, r2, r3)).2.test.length ≤ ids.length := by
    have h := congrArg List.length hconcat
    rw [List.length_append, List.length_append, List.length_take] at h
    have h2 : min (splitBoundaries ids.length (r1, r2, r3)).2.2.toNat
        (shuffle ids).length ≤ ids.length := by
      rw [hlen]
      exact min_le_right _ _
    omega
  have hms : ((random_split shuffle ids (r1, r2, r3)).2.train ++
      (random_split shuffle ids (r1, r2, r3)).2.dev ++
      (random_split shuffle ids (r1, r2, r3)).2.test : Multiset α) ≤
      (ids : Multiset α) := by
    rw [hconcat]
    exact Multiset.coe_le.mpr
      (((List.take_sublist _ _).subperm).trans hperm.subperm)
  exact ⟨hlensum, e1, e2, e3, o01, o12, o23, o3n, t_train, t_dev, t_test,
    hconcat, hms⟩

/-- C2 counterexample: with the ratio triple `(1/2, -1/2, 1)` (which sums
to 1) on the four-element id list `[0, 1, 2, 3]`, and the identity as the
shuffle outcome, the three bucket lengths sum to 6 > 4, because Python
slicing at the boundary indices `[2, 0, 4]` yields `ids[:2]`, `ids[2:0] = []`
and `ids[0:4]` — the whole list again. -/
theorem random_split_negative_ratio_counterexample :
    ((fun l : List ℕ => l) [0, 1, 2, 3]).Perm [0, 1, 2, 3] ∧
    ((1 : ℚ)/2 + (-1/2) + 1 ≤ 1) ∧
    ¬ ((random_split (fun l => l) [0, 1, 2, 3] ((1 : ℚ)/2, -1/2, 1)).2.train.length +
        (random_split (fun l => l) [0, 1, 2, 3] ((1 : ℚ)/2, -1/2, 1)).2.dev.length +
        (random_split (fun l => l) [0, 1, 2, 3] ((1 : ℚ)/2, -1/2, 1)).2.test.length ≤
        ([0, 1, 2, 3] : List ℕ).length) := by
  have hb : splitBoundaries ([0, 1, 2, 3] : List ℕ).length ((1 : ℚ)/2, -1/2, 1) =
      (2, 0, 4) := by
    norm_num [splitBoundaries, pyInt]
  have hr : random_split (fun l => l) [0, 1, 2, 3] ((1 : ℚ)/2, -1/2, 1) =
      ([0, 1, 2, 3], { train := [0, 1], dev := [], test := [0, 1, 2, 3] }) := by
    simp only [random_split, hb]
    norm_num [pySlice, pyIdx]
    decide
  refine ⟨List.Perm.refl _, by norm_num, ?_⟩
  rw [hr]
  decide

/-- C2 witness: the theorem at the concrete input `ids = [0, 1, 2, 3, 4]`,
ratio triple `(2/5, 1/5, 1/5)` and the reversal as the shuffle outcome. -/
theorem random_split_spec_witness :
    (random_split List.reverse ([0, 1, 2, 3, 4] : List ℕ) ((2 : ℚ)/5, 1/5, 1/5)).2.train.length +
        (random_split List.reverse ([0, 1, 2, 3, 4] : List ℕ) ((2 : ℚ)/5, 1/5, 1/5)).2.dev.length +
        (random_split List.reverse ([0, 1, 2, 3, 4] : List ℕ) ((2 : ℚ)/5, 1/5, 1/5)).2.test.length ≤
      ([0, 1, 2, 3, 4] : List ℕ).length ∧
    (splitBoundaries ([0, 1, 2, 3, 4] : List ℕ).length ((2 : ℚ)/5, 1/5, 1/5)).1 =
      ⌊((([0, 1, 2, 3, 4] : List ℕ).length) : ℚ) * ((2 : ℚ)/5)⌋ ∧
    (splitBoundaries ([0, 1, 2, 3, 4] : List ℕ).length ((2 : ℚ)/5, 1/5, 1/5)).2.1 =
      ⌊((([0, 1, 2, 3, 4] : List ℕ).length) : ℚ) * ((2 : ℚ)/5 + 1/5)⌋ ∧
    (splitBoundaries ([0, 1, 2, 3, 4] : List ℕ).length ((2 : ℚ)/5, 1/5, 1/5)).2.2 =
      ⌊((([0, 1, 2, 3, 4] : List ℕ).length) : ℚ) * ((2 : ℚ)/5 + 1/5 + 1/5)⌋ ∧
    (0 : ℤ) ≤ (splitBoundaries ([0, 1, 2, 3, 4] : List ℕ).length ((2 : ℚ)/5, 1/5, 1/5)).1 ∧
    (splitBoundaries ([0, 1, 2, 3, 4] : List ℕ).length ((2 : ℚ)/5, 1/5, 1/5)).1 ≤
      (splitBoundaries ([0, 1, 2, 3, 4] : List ℕ).length ((2 : ℚ)/5, 1/5, 1/5)).2.1 ∧
    (splitBoundaries ([0, 1, 2, 3, 4] : List ℕ).length ((2 : ℚ)/5, 1/5, 1/5)).2.1 ≤
      (splitBoundaries ([0, 1, 2, 3, 4] : List ℕ).length ((2 : ℚ)/5, 1/5, 1/5)).2.2 ∧
    (splitBoundaries ([0, 1, 2, 3, 4] : List ℕ).length ((2 : ℚ)/5, 1/5, 1/5)).2.2 ≤
      ((([0, 1, 2, 3, 4] : List ℕ).length) : ℤ) ∧
    (random_split List.reverse ([0, 1, 2, 3, 4] : List ℕ) ((2 : ℚ)/5, 1/5, 1/5)).2.train =
      (([0, 1, 2, 3, 4] : List ℕ).reverse).take
        (splitBoundaries ([0, 1, 2, 3, 4] : List ℕ).length ((2 : ℚ)/5, 1/5, 1/5)).1.toNat ∧
    (random_split List.reverse ([0, 1, 2, 3, 4] : List ℕ) ((2 : ℚ)/5, 1/5, 1/5)).2.dev =
      ((([0, 1, 2, 3, 4] : List ℕ).reverse).take
          (splitBoundaries ([0, 1, 2, 3, 4] : List ℕ).length ((2 : ℚ)/5, 1/5, 1/5)).2.1.toNat).drop
        (splitBoundaries ([0, 1, 2, 3, 4] : List ℕ).length ((2 : ℚ)/5, 1/5, 1/5)).1.toNat ∧
    (random_split List.reverse ([0, 1, 2, 3, 4] : List ℕ) ((2 : ℚ)/5, 1/5, 1/5)).2.test =
      ((([0, 1, 2, 3, 4] : List ℕ).reverse).take
          (splitBoundaries ([0, 1, 2, 3, 4] : List ℕ).length ((2 : ℚ)/5, 1/5, 1/5)).2.2.toNat).drop
        (splitBoundaries ([0, 1, 2, 3, 4] : List ℕ).length ((2 : ℚ)/5, 1/5, 1/5)).2.1.toNat ∧
    (random_split List.reverse ([0, 1, 2, 3, 4] : List ℕ) ((2 : ℚ)/5, 1/5, 1/5)).2.train ++
        (random_split List.reverse ([0, 1, 2, 3, 4] : List ℕ) ((2 : ℚ)/5, 1/5, 1/5)).2.dev ++
        (random_split List.reverse ([0, 1, 2, 3, 4] : List ℕ) ((2 : ℚ)/5, 1/5, 1/5)).2.test =
      (([0, 1, 2, 3, 4] : List ℕ).reverse).take
        (splitBoundaries ([0, 1, 2, 3, 4] : List ℕ).length ((2 : ℚ)/5, 1/5, 1/5)).2.2.toNat ∧
    ((random_split List.reverse ([0, 1, 2, 3, 4] : List ℕ) ((2 : ℚ)/5, 1/5, 1/5)).2.train ++
        (random_split List.reverse ([0, 1, 2, 3, 4] : List ℕ) ((2 : ℚ)/5, 1/5, 1/5)).2.dev ++
        (random_split List.reverse ([0, 1, 2, 3, 4] : List ℕ) ((2 : ℚ)/5, 1/5, 1/5)).2.test : Multiset ℕ) ≤
      (([0, 1, 2, 3, 4] : List ℕ) : Multiset ℕ) :=
  random_split_spec List.reverse [0, 1, 2, 3, 4] (2/5) (1/5) (1/5)
    (List.reverse_perm _) (by norm_num) (by norm_num) (by norm_num) (by norm_num)

/-- C3: `normalize_` preserves the channel count, and for each channel `i`
it subtracts `means[i]` pointwise and then divides the channel by `stds[i]`
when `stds[i] > 0`, and otherwise sets every entry of the channel to exactly
0 while preserving the channel's pixel count — so a zero-variance channel
yields an all-zero normalized channel and the division branch is never
reached for it. -/
theorem normalize_channelwise (img : Img) (means stds : List ℚ)
    (hm : means.length = img.length) (hs : stds.length = img.length)
    (i : ℕ) (hi : i < img.length) :
    (normalize_ img means stds).length = img.length ∧
    (0 < stds.getD i 0 →
      (normalize_ img means stds).getD i [] =
        (img.getD i []).map
          (fun x => (x.subQ (means.getD i 0)).divQ (stds.getD i 0))) ∧
    (¬ 0 < stds.getD i 0 →
      ∀ x ∈ (normalize_ img means stds).getD i [], x = PyFloat.finite 0) ∧
    ((normalize_ img means stds).getD i []).length = (img.getD i []).length := by
  have hidx := normalize_getD img means stds i hm hs hi
  refine ⟨normalize_length img means stds hm hs, ?_, ?_, ?_⟩
  · intro hpos
    rw [hidx, normChannel, if_pos hpos, List.map_map]
    rfl
  · intro hneg
    rw [hidx, normChannel, if_neg hneg]
    simp
  · rw [hidx, normChannel]
    split <;> simp

/-- C3 witness: the theorem at the two-channel image `imgW` with
`means = [1, 5]`, `stds = [2, 0]`, evaluated at the zero-variance channel
`i = 1`. -/
theorem normalize_channelwise_witness :
    (normalize_ imgW [1, 5] [2, 0]).length = imgW.length ∧
    (0 < ([2, 0] : List ℚ).getD 1 0 →
      (normalize_ imgW [1, 5] [2, 0]).getD 1 [] =
        (imgW.getD 1 []).map
          (fun x => (x.subQ (([1, 5] : List ℚ).getD 1 0)).divQ
            (([2, 0] : List ℚ).getD 1 0))) ∧
    (¬ 0 < ([2, 0] : List ℚ).getD 1 0 →
      ∀ x ∈ (normalize_ imgW [1, 5] [2, 0]).getD 1 [], x = PyFloat.finite 0) ∧
    ((normalize_ imgW [1, 5] [2, 0]).getD 1 []).length =
      (imgW.getD 1 []).length :=
  normalize_channelwise imgW [1, 5] [2, 0] rfl rfl 1 (by simp [imgW])

/-- C4: when every channel's std is strictly positive, per-channel
denormalization `x * std + mean` applied after `normalize_` recovers the
original image exactly (over exact arithmetic; NaN and infinite entries are
also carried back to themselves). -/
theorem normalize_denormalize_roundtrip (img : Img) (means stds : List ℚ)
    (hm : means.length = img.length) (hs : stds.length = img.length)
    (hpos : ∀ s ∈ stds, 0 < s) :
    denormalize (normalize_ img means stds) means stds = img := by
  induction img generalizing means stds with
  | nil => rfl
  | cons ch rest ih =>
    cases means with
    | nil => simp at hm
    | cons m ms =>
      cases stds with
      | nil => simp at hs
      | cons s ss =>
        have hs0 : 0 < s := hpos s (List.mem_cons_self s ss)
        show (normChannel ch m s).map (fun x => (x.mulQ s).addQ m) ::
            denormalize (normalize_ rest ms ss) ms ss = ch :: rest
        congr 1
        · rw [normChannel, if_pos hs0, List.map_map, List.map_map]
          exact (List.map_congr_left
            fun a _ => roundtrip_elem a m s hs0).trans (List.map_id ch)
        · exact ih ms ss (by simpa using hm) (by simpa using hs)
            (fun t ht => hpos t (List.mem_cons_of_mem s ht))

/-- C4 witness: the round trip at the concrete image `imgW2` with
`means = [1, 2]` and strictly positive `stds = [3, 5]`. -/
theorem normalize_denormalize_roundtrip_witness :
    denormalize (normalize_ imgW2 [1, 2] [3, 5]) [1, 2] [3, 5] = imgW2 :=
  normalize_denormalize_roundtrip imgW2 [1, 2] [3, 5] rfl rfl (by
    intro s hs
    rcases List.mem_cons.mp hs with h | h
    · rw [h]; norm_num
    · rw [List.mem_singleton.mp h]; norm_num)

/-- C5: `filter_directory` returns exactly the rows whose coverage for the
filter channel strictly exceeds the threshold AND whose image mean is
strictly positive, as `{img, mask}` pairs in input order; in particular a
row whose coverage equals the threshold is excluded, a row with image mean 0
is excluded regardless of coverage, and a row passing both strict bounds is
included. -/
theorem filter_directory_spec (meta : List SliceRow) (p : ℚ) (c : ℕ) :
    filter_directory meta p c =
      (meta.filter (fun d => decide (p < d.mask_mean c ∧ 0 < d.img_mean))).map
        (fun d => ⟨d.img_slice, d.mask_slice⟩) ∧
    (∀ d : SliceRow, d.mask_mean c = p → filter_directory [d] p c = []) ∧
    (∀ d : SliceRow, d.img_mean = 0 → filter_directory [d] p c = []) ∧
    (∀ d : SliceRow, p < d.mask_mean c → 0 < d.img_mean →
      filter_directory [d] p c = [⟨d.img_slice, d.mask_slice⟩]) := by
  refine ⟨?_, ?_, ?_, ?_⟩
  · simp only [filter_directory, List.filter_filter]
    congr 1
    apply List.filter_congr
    intro d _
    rw [Bool.and_comm]
    simp
  · intro d hd
    simp [filter_directory, List.filter, hd]
  · intro d hd
    simp only [filter_directory]
    by_cases h : p < d.mask_mean c
    · simp [List.filter, h, hd, lt_irrefl]
    · simp [List.filter, h]
  · intro d h1 h2
    simp [filter_directory, List.filter, h1, h2]

/-- C5 witness: with `filter_perc = 1/5`, the boundary row (coverage exactly
1/5) and the zero-mean row are excluded, and the row with coverage
0.2000001 and positive mean is included. -/
theorem filter_directory_spec_witness :
    filter_directory [rowBoundary] (1/5) 1 = [] ∧
    filter_directory [rowZeroMean] (1/5) 1 = [] ∧
    filter_directory [rowIncluded] (1/5) 1 =
      [{ img := "img-included", mask := "mask-included" }] :=
  ⟨(filter_directory_spec [rowBoundary] (1/5) 1).2.1 rowBoundary rfl,
   (filter_directory_spec [rowZeroMean] (1/5) 1).2.2.1 rowZeroMean rfl,
   (filter_directory_spec [rowIncluded] (1/5) 1).2.2.2 rowIncluded
     (by norm_num [rowIncluded]) (by norm_num [rowIncluded])⟩

/-- C6 (amended: "outside the fixed step registry" narrowed to "not an
attribute of the processing module"): a step name that `getattr` cannot
resolve makes the pipeline fail immediately with an `AttributeError`
identifying the offending name — no step is silently skipped and the rest
of the spec is not executed.  Names that are module attributes are
dispatched even when they are not processing steps (see the
counterexample). -/
theorem postprocess_unknown_attr_error (name : String) (h : name ∉ moduleAttrs)
    (args : StepArgs) (img mask : Img) (rest : List (String × StepArgs)) :
    postprocess_ img mask ((name, args) :: rest) =
      .error (.attributeError name) := by
  simp [postprocess_, postprocessStep, h]

/-- C6 witness: the theorem at the concrete unknown name
`"not_a_function"`. -/
theorem postprocess_unknown_attr_error_witness :
    postprocess_ [[PyFloat.finite 1]] [[PyFloat.finite 0]]
        [("not_a_function", StepArgs.noArgs)] =
      .error (.attributeError "not_a_function") :=
  postprocess_unknown_attr_error "not_a_function" (by decide) _ _ _ _

/-- C6 counterexample: the step name `"random_split"` lies outside the fixed
step registry, yet the pipeline does not raise an unknown-step error for
it — `getattr` resolves it to a module attribute and dispatches the call. -/
theorem postprocess_dispatches_nonstep :
    postprocess_ [[PyFloat.finite 1]] [[PyFloat.finite 0]]
        [("random_split", StepArgs.noArgs)] =
      .error (.dispatched "random_split") ∧
    "random_split" ∉ stepRegistry := ⟨rfl, by decide⟩

/-- C7: `extract_channel` with the default (`None`) channel sets returns
both arrays unchanged with all channels present, hence the postprocess
pipeline for a spec consisting solely of that step is the identity and
composing it with itself equals a single application. -/
theorem extract_channel_default_identity_idempotent (img mask : Img) :
    extract_channel img mask = (img, mask) ∧
    postprocess_ img mask fullChannelSpec = .ok (img, mask) ∧
    (postprocess_ img mask fullChannelSpec).bind
        (fun r => postprocess_ r.1 r.2 fullChannelSpec) =
      postprocess_ img mask fullChannelSpec := by
  have h : extract_channel img mask = (img, mask) := by
    simp [extract_channel, selectChannels_none]
  have h2 : postprocess_ img mask fullChannelSpec = .ok (img, mask) := by
    simp [postprocess_, fullChannelSpec, postprocessStep, moduleAttrs, h]
  exact ⟨h, h2, by rw [h2]; exact h2⟩

/-- C8: `random_split` shuffles the caller's list in place: the post-call
state of the argument is exactly the shuffle outcome, it is a permutation
of the original contents, and the three returned buckets are the contiguous
Python slices of that mutated list at the computed boundaries. -/
theorem random_split_mutates {α : Type} (shuffle : List α → List α)
    (ids : List α) (r : ℚ × ℚ × ℚ) (hperm : (shuffle ids).Perm ids) :
    (random_split shuffle ids r).1 = shuffle ids ∧
    (random_split shuffle ids r).1.Perm ids ∧
    (random_split shuffle ids r).2.train =
      pySlice (random_split shuffle ids r).1 0
        (splitBoundaries (random_split shuffle ids r).1.length r).1 ∧
    (random_split shuffle ids r).2.dev =
      pySlice (random_split shuffle ids r).1
        (splitBoundaries (random_split shuffle ids r).1.length r).1
        (splitBoundaries (random_split shuffle ids r).1.length r).2.1 ∧
    (random_split shuffle ids r).2.test =
      pySlice (random_split shuffle ids r).1
        (splitBoundaries (random_split shuffle ids r).1.length r).2.1
        (splitBoundaries (random_split shuffle ids r).1.length r).2.2 :=
  ⟨rfl, hperm, rfl, rfl, rfl⟩

/-- C8 witness: the theorem at `ids = [1, 2, 3]`, ratio `(1/3, 1/3, 1/3)`
and the reversal as the shuffle outcome. -/
theorem random_split_mutates_witness :
    (random_split List.reverse ([1, 2, 3] : List ℕ) ((1 : ℚ)/3, 1/3, 1/3)).1 =
      ([1, 2, 3] : List ℕ).reverse ∧
    (random_split List.reverse ([1, 2, 3] : List ℕ) ((1 : ℚ)/3, 1/3, 1/3)).1.Perm
      [1, 2, 3] ∧
    (random_split List.reverse ([1, 2, 3] : List ℕ) ((1 : ℚ)/3, 1/3, 1/3)).2.train =
      pySlice (random_split List.reverse ([1, 2, 3] : List ℕ) ((1 : ℚ)/3, 1/3, 1/3)).1 0
        (splitBoundaries
          (random_split List.reverse ([1, 2, 3] : List ℕ) ((1 : ℚ)/3, 1/3, 1/3)).1.length
          ((1 : ℚ)/3, 1/3, 1/3)).1 ∧
    (random_split List.reverse ([1, 2, 3] : List ℕ) ((1 : ℚ)/3, 1/3, 1/3)).2.dev =
      pySlice (random_split List.reverse ([1, 2, 3] : List ℕ) ((1 : ℚ)/3, 1/3, 1/3)).1
        (splitBoundaries
          (random_split List.reverse ([1, 2, 3] : List ℕ) ((1 : ℚ)/3, 1/3, 1/3)).1.length
          ((1 : ℚ)/3, 1/3, 1/3)).1
        (splitBoundaries
          (random_split List.reverse ([1, 2, 3] : List ℕ) ((1 : ℚ)/3, 1/3, 1/3)).1.length
          ((1 : ℚ)/3, 1/3, 1/3)).2.1 ∧
    (random_split List.reverse ([1, 2, 3] : List ℕ) ((1 : ℚ)/3, 1/3, 1/3)).2.test =
      pySlice (random_split List.reverse ([1, 2, 3] : List ℕ) ((1 : ℚ)/3, 1/3, 1/3)).1
        (splitBoundaries
          (random_split List.reverse ([1, 2, 3] : List ℕ) ((1 : ℚ)/3, 1/3, 1/3)).1.length
          ((1 : ℚ)/3, 1/3, 1/3)).2.1
        (splitBoundaries
          (random_split List.reverse ([1, 2, 3] : List ℕ) ((1 : ℚ)/3, 1/3, 1/3)).1.length
          ((1 : ℚ)/3, 1/3, 1/3)).2.2 :=
  random_split_mutates List.reverse [1, 2, 3] ((1 : ℚ)/3, 1/3, 1/3)
    (List.reverse_perm _)

/-- C9 (amended: the overwrite is unconditional, but the spec "no longer
carries its original mask_channels value" only when that value differed
from the scalar 0): after `postprocess_tile`, every extract-channel entry
of the caller's spec carries `mask_channels = 0`, and if the spec contained
an extract-channel entry whose `mask_channels` differed from 0 then the
post-call spec differs from the original. -/
theorem postprocess_tile_mutates_spec (img : Img) (spec : List (String × StepArgs))
    (hwf : ∀ p ∈ spec, p.1 = "extract_channel" → (maskChannelsOf p.2).isSome) :
    (∀ p ∈ (postprocess_tile img spec).1, p.1 = "extract_channel" →
      maskChannelsOf p.2 = some (ChannelSel.scalar 0)) ∧
    ((∃ p ∈ spec, p.1 = "extract_channel" ∧
        maskChannelsOf p.2 ≠ some (ChannelSel.scalar 0)) →
      (postprocess_tile img spec).1 ≠ spec) := by
  have hmain : ∀ p ∈ (postprocess_tile img spec).1, p.1 = "extract_channel" →
      maskChannelsOf p.2 = some (ChannelSel.scalar 0) := by
    intro p hp hname
    simp only [postprocess_tile, List.mem_map] at hp
    obtain ⟨q, hq, hpq⟩ := hp
    by_cases hq1 : q.1 = "extract_channel"
    · rw [if_pos hq1] at hpq
      have hsome := hwf q hq hq1
      subst hpq
      match harg : q.2 with
      | .extractArgs mc ic => simp [setMaskChannels, maskChannelsOf]
      | .normalizeArgs ms ss => rw [harg] at hsome; simp [maskChannelsOf] at hsome
      | .imputeArgs v => rw [harg] at hsome; simp [maskChannelsOf] at hsome
      | .noArgs => rw [harg] at hsome; simp [maskChannelsOf] at hsome
    · rw [if_neg hq1] at hpq
      subst hpq
      exact absurd hname hq1
  refine ⟨hmain, ?_⟩
  rintro ⟨p, hp, hname, hval⟩ heq
  exact hval (hmain p (by rw [heq]; exact hp) hname)

/-- C9 witness: the theorem at the spec `specList`, whose extract-channel
entry carries `mask_channels = [0]` (a value other than the scalar 0). -/
theorem postprocess_tile_mutates_spec_witness :
    (∀ p ∈ (postprocess_tile exImgA specList).1, p.1 = "extract_channel" →
      maskChannelsOf p.2 = some (ChannelSel.scalar 0)) ∧
    ((∃ p ∈ specList, p.1 = "extract_channel" ∧
        maskChannelsOf p.2 ≠ some (ChannelSel.scalar 0)) →
      (postprocess_tile exImgA specList).1 ≠ specList) :=
  postprocess_tile_mutates_spec exImgA specList (by decide)

/-- C9 counterexample: a spec whose extract-channel `mask_channels` is
already the scalar 0 is returned unchanged by `postprocess_tile`, so after
the call it still carries its original `mask_channels` value — the claim's
"no longer carries its original value" fails at this input. -/
theorem postprocess_tile_zero_unchanged :
    (postprocess_tile exImgA specZero).1 = specZero ∧
    specZero.map (fun p => maskChannelsOf p.2) = [some (ChannelSel.scalar 0)] :=
  ⟨rfl, rfl⟩

/-- C10: `impute` maps `np.nan_to_num(·, nan=value)` over every image entry
and returns the mask unchanged; NaN becomes `value`, +infinity becomes the
largest finite double, -infinity its negation, finite entries are fixed —
so an entry is unchanged precisely when it is finite — and the replacement
for the infinities is a large finite number. -/
theorem impute_replaces_nan_and_infinities (img mask : Img) (v : ℚ) :
    impute img mask v = (img.map (List.map (nan_to_num v)), mask) ∧
    nan_to_num v .nan = .finite v ∧
    nan_to_num v .posinf = .finite floatMax ∧
    nan_to_num v .neginf = .finite (-floatMax) ∧
    (∀ q : ℚ, nan_to_num v (.finite q) = .finite q) ∧
    (∀ x : PyFloat, nan_to_num v x = x ↔ ∃ q, x = .finite q) ∧
    (10 ^ 300 : ℚ) < floatMax := by
  refine ⟨rfl, rfl, rfl, rfl, fun _ => rfl, fun x => ?_, by norm_num [floatMax]⟩
  cases x <;> simp [nan_to_num]

end GlacierMapping
